import Mathlib

/-!
Verification of the ecosystems-go client library (src/client.go, src/purl.go).

The HTTP backends (the generated `packages` and `repos` OpenAPI clients) are
external collaborators: every operation that performs a network round trip is
embedded as a function of an explicit `api` argument, a function from the
request data to the transport outcome `Except String resp` (`Except.error`
models a non-nil Go `err`; `Except.ok` a decoded response value carrying the
HTTP status code and the decoded JSON bodies).  Go slices are modelled as Lean
lists (a nil Go slice is `[]`), Go maps over string keys as association lists
with overwrite-on-insert, Go error values as their message strings, and record
types that the client treats as opaque (`Package`, `Version`, `Repository`,
payload fields of `PackageWithRegistry`) as type parameters.
-/

/-! ## PURL data model (src/purl.go and the external packageurl-go types) -/

/-- The `packageurl.PackageURL` struct of packageurl-go.  The Go field `Type`
is a Lean keyword, so it is named `Typ` here. -/
structure PackageURL where
  Typ : String
  Namespace : String
  Name : String
  Version : String
  Qualifiers : List (String × String) := []
  Subpath : String := ""
deriving DecidableEq, Repr

/-- packageurl-go type constant `TypeAlpm`. -/
def TypeAlpm : String := "alpm"
/-- packageurl-go type constant `TypeApk`. -/
def TypeApk : String := "apk"
/-- packageurl-go type constant `TypeBitbucket`. -/
def TypeBitbucket : String := "bitbucket"
/-- packageurl-go type constant `TypeBitnami`. -/
def TypeBitnami : String := "bitnami"
/-- packageurl-go type constant `TypeBower`. -/
def TypeBower : String := "bower"
/-- packageurl-go type constant `TypeCargo`. -/
def TypeCargo : String := "cargo"
/-- packageurl-go type constant `TypeCarthage`. -/
def TypeCarthage : String := "carthage"
/-- packageurl-go type constant `TypeChef`. -/
def TypeChef : String := "chef"
/-- packageurl-go type constant `TypeChocolatey`. -/
def TypeChocolatey : String := "chocolatey"
/-- packageurl-go type constant `TypeClojars`. -/
def TypeClojars : String := "clojars"
/-- packageurl-go type constant `TypeCocoapods`. -/
def TypeCocoapods : String := "cocoapods"
/-- packageurl-go type constant `TypeComposer`. -/
def TypeComposer : String := "composer"
/-- packageurl-go type constant `TypeConan`. -/
def TypeConan : String := "conan"
/-- packageurl-go type constant `TypeConda`. -/
def TypeConda : String := "conda"
/-- packageurl-go type constant `TypeCpan`. -/
def TypeCpan : String := "cpan"
/-- packageurl-go type constant `TypeCran`. -/
def TypeCran : String := "cran"
/-- packageurl-go type constant `TypeDocker`. -/
def TypeDocker : String := "docker"
/-- packageurl-go type constant `TypeElm`. -/
def TypeElm : String := "elm"
/-- packageurl-go type constant `TypeGem`. -/
def TypeGem : String := "gem"
/-- packageurl-go type constant `TypeGeneric`. -/
def TypeGeneric : String := "generic"
/-- packageurl-go type constant `TypeGithub`. -/
def TypeGithub : String := "github"
/-- packageurl-go type constant `TypeGolang`. -/
def TypeGolang : String := "golang"
/-- packageurl-go type constant `TypeHackage`. -/
def TypeHackage : String := "hackage"
/-- packageurl-go type constant `TypeHex`. -/
def TypeHex : String := "hex"
/-- packageurl-go type constant `TypeHuggingface`. -/
def TypeHuggingface : String := "huggingface"
/-- packageurl-go type constant `TypeMaven`. -/
def TypeMaven : String := "maven"
/-- packageurl-go type constant `TypeNPM`. -/
def TypeNPM : String := "npm"
/-- packageurl-go type constant `TypeNuget`. -/
def TypeNuget : String := "nuget"
/-- packageurl-go type constant `TypeOCI`. -/
def TypeOCI : String := "oci"
/-- packageurl-go type constant `TypePub`. -/
def TypePub : String := "pub"
/-- packageurl-go type constant `TypePyPi`. -/
def TypePyPi : String := "pypi"
/-- packageurl-go type constant `TypeRPM`. -/
def TypeRPM : String := "rpm"
/-- packageurl-go type constant `TypeSwift`. -/
def TypeSwift : String := "swift"

/-- The Go map literal `purlTypeToRegistry` (src/purl.go lines 82-120), as an
association list in source order. -/
def purlTypeToRegistry : List (String × String) :=
  [(TypeAlpm, "archlinux.org"),
   (TypeApk, "alpine-edge"),
   (TypeBitbucket, ""),
   (TypeBitnami, ""),
   (TypeBower, "bower.io"),
   (TypeCargo, "crates.io"),
   (TypeCarthage, "carthage"),
   (TypeChef, "supermarket.chef.io"),
   (TypeChocolatey, "chocolatey.org"),
   (TypeClojars, "clojars.org"),
   (TypeCocoapods, "cocoapods.org"),
   (TypeComposer, "packagist.org"),
   (TypeConan, "conan.io"),
   (TypeConda, "anaconda.org"),
   (TypeCpan, "metacpan.org"),
   (TypeCran, "cran.r-project.org"),
   (TypeDocker, "hub.docker.com"),
   (TypeElm, "package.elm-lang.org"),
   (TypeGem, "rubygems.org"),
   (TypeGeneric, ""),
   (TypeGithub, ""),
   (TypeGolang, "proxy.golang.org"),
   (TypeHackage, "hackage.haskell.org"),
   (TypeHex, "hex.pm"),
   (TypeHuggingface, ""),
   (TypeMaven, "repo1.maven.org"),
   (TypeNPM, "npmjs.org"),
   (TypeNuget, "nuget.org"),
   (TypeOCI, ""),
   (TypePub, "pub.dev"),
   (TypePyPi, "pypi.org"),
   (TypeRPM, ""),
   (TypeSwift, "swiftpackageindex.com"),
   ("brew", "formulae.brew.sh"),
   ("deb", "debian"),
   ("julia", "juliahub.com"),
   ("puppet", "forge.puppet.com")]

/-- Go map indexing `m[k]` on a `map[string]string`: the value of the first
matching key, and the zero value `""` when the key is absent. -/
def goMapGet (m : List (String × String)) (k : String) : String :=
  match m.find? (fun p => p.1 == k) with
  | some p => p.2
  | none => ""

/-- `PURLToRegistry` (src/purl.go lines 13-15): `purlTypeToRegistry[purl.Type]`. -/
def PURLToRegistry (purl : PackageURL) : String :=
  goMapGet purlTypeToRegistry purl.Typ

/-- `PURLToName` (src/purl.go lines 18-36). -/
def PURLToName (purl : PackageURL) : String :=
  let name := purl.Name
  if purl.Namespace = "" then name
  else if purl.Typ = TypeMaven then purl.Namespace ++ ":" ++ purl.Name
  else if purl.Typ = TypeApk then name
  else purl.Namespace ++ "/" ++ purl.Name

/-- Go `strings.HasPrefix(s, pre)`, embedded as a character-list prefix test
(the prefixes used by the client are ASCII, where Go's byte-level test and the
character-level test agree). -/
def hasPrefix (s pre : String) : Bool :=
  pre.data.isPrefixOf s.data

/-- `ParsePURL` (src/purl.go lines 73-79).  The external syntax parser
`packageurl.FromString` is passed in as `fromString`. -/
def ParsePURL (fromString : String → Except String PackageURL) (s : String) :
    Except String PackageURL :=
  if hasPrefix s "pkg:" then fromString s else fromString ("pkg:" ++ s)

/-- Splitting a character list at every occurrence of `c` (used only by the
modelled external parser below). -/
def splitOnChar (c : Char) : List Char → List (List Char)
  | [] => [[]]
  | a :: rest =>
    match splitOnChar c rest with
    | [] => [[a]]
    | g :: gs => if a = c then [] :: g :: gs else (a :: g) :: gs

/-- Joining character-list segments with `/` (used only by the modelled
external parser below). -/
def joinSlash : List (List Char) → List Char
  | [] => []
  | [g] => g
  | g :: gs => g ++ '/' :: joinSlash gs

/-- Modelled from the spec: `packageurl.FromString` (the external PURL syntax
parser from package-url/packageurl-go) is not part of this repository.  This
is a minimal model of the documented grammar `pkg:type/namespace.../name@version`
for inputs without qualifiers or subpath: the scheme token is required, the
segment before the first `/` is the type, the remaining segments up to the
last are the namespace, and the last segment is `name` or `name@version`. -/
def fromStringModel (s : String) : Except String PackageURL :=
  if hasPrefix s "pkg:" then
    match splitOnChar '/' (s.data.drop 4) with
    | ty :: seg1 :: segs =>
      let nameVer := (seg1 :: segs).getLastD []
      let ns := joinSlash ((seg1 :: segs).dropLast)
      match splitOnChar '@' nameVer with
      | [n] => Except.ok ⟨⟨ty⟩, ⟨ns⟩, ⟨n⟩, "", [], ""⟩
      | [n, v] => Except.ok ⟨⟨ty⟩, ⟨ns⟩, ⟨n⟩, ⟨v⟩, [], ""⟩
      | _ => Except.error "purl has more than one version separator"
    | _ => Except.error "purl is missing a name"
  else Except.error "purl scheme is missing"

/-! ## Client data model (src/client.go) -/

/-- `MaxBulkLookupSize` (src/client.go line 22). -/
def MaxBulkLookupSize : Nat := 100

/-- The `packages.PackageWithRegistry` record: the client reads only its
`Purl` field; everything else is the opaque payload `α`. -/
structure PackageWithRegistry (α : Type) where
  Purl : String
  payload : α
deriving DecidableEq, Repr

/-- The error body of a 400 response from the bulk-lookup endpoint
(`resp.JSON400` with its optional `Error` field). -/
structure ErrorBody where
  error : Option String
deriving DecidableEq, Repr

/-- The decoded response of `BulkLookupPackagesWithResponse`. -/
structure BulkLookupResponse (α : Type) where
  statusCode : Nat
  JSON200 : Option (List (PackageWithRegistry α))
  JSON400 : Option ErrorBody
deriving DecidableEq, Repr

/-- Go map assignment `m[k] = v` on a `map[string]...` represented as an
association list: overwrite the binding when the key is present, append it
otherwise. -/
def mapInsert {β : Type} (m : List (String × β)) (k : String) (v : β) :
    List (String × β) :=
  if m.any (fun p => p.1 == k) then
    m.map (fun p => if p.1 == k then (k, v) else p)
  else m ++ [(k, v)]

/-- The merge loop of `BulkLookup` (src/client.go lines 200-203):
`for _, pkg := range *resp.JSON200 { results[pkg.Purl] = &pkg }`. -/
def mergePkgs {α : Type} (m : List (String × PackageWithRegistry α))
    (pkgs : List (PackageWithRegistry α)) : List (String × PackageWithRegistry α) :=
  pkgs.foldl (fun acc pkg => mapInsert acc pkg.Purl pkg) m

/-- One iteration of the `BulkLookup` batch loop up to the merge
(src/client.go lines 185-199): the network call, the transport-error wrap, and
the non-200 handling that prefers the embedded `JSON400.Error` message. -/
def processBatch {α : Type} (api : List String → Except String (BulkLookupResponse α))
    (batch : List String) : Except String (Option (List (PackageWithRegistry α))) :=
  match api batch with
  | Except.error e => Except.error ("bulk lookup: " ++ e)
  | Except.ok resp =>
    if resp.statusCode ≠ 200 then
      match resp.JSON400 with
      | some body =>
        match body.error with
        | some msg => Except.error ("bulk lookup failed: " ++ msg)
        | none => Except.error ("bulk lookup failed with status " ++ toString resp.statusCode)
      | none => Except.error ("bulk lookup failed with status " ++ toString resp.statusCode)
    else Except.ok resp.JSON200

/-- The slicing loop `for i := 0; i < len(purls); i += MaxBulkLookupSize`
(src/client.go lines 178-183), phrased as successive `take`/`drop`; the fuel
argument only bounds the recursion and is always supplied as `l.length`,
which the loop never exhausts since every iteration consumes at least one
element. -/
def chunkGo {γ : Type} : Nat → List γ → List (List γ)
  | _, [] => []
  | 0, _ => []
  | fuel + 1, l => l.take MaxBulkLookupSize :: chunkGo fuel (l.drop MaxBulkLookupSize)

/-- The list of batches `purls[i:end]` produced by the `BulkLookup` loop. -/
def chunkList {γ : Type} (l : List γ) : List (List γ) :=
  chunkGo l.length l

/-- The batch loop of `BulkLookup` (src/client.go lines 178-205).  Besides the
Go function's result it returns the trace of batches actually sent over the
network, one entry per call to `BulkLookupPackagesWithResponse`, in order. -/
def runBulkBatches {α : Type} (api : List String → Except String (BulkLookupResponse α)) :
    List (List String) → List (String × PackageWithRegistry α) →
    Except String (List (String × PackageWithRegistry α)) × List (List String)
  | [], acc => (Except.ok acc, [])
  | b :: bs, acc =>
    match processBatch api b with
    | Except.error e => (Except.error e, [b])
    | Except.ok none =>
      let r := runBulkBatches api bs acc
      (r.1, b :: r.2)
    | Except.ok (some pkgs) =>
      let r := runBulkBatches api bs (mergePkgs acc pkgs)
      (r.1, b :: r.2)

/-- `BulkLookup` (src/client.go lines 171-208), returning the Go result
together with the trace of network calls made. -/
def BulkLookup {α : Type} (api : List String → Except String (BulkLookupResponse α))
    (purls : List String) :
    Except String (List (String × PackageWithRegistry α)) × List (List String) :=
  if purls.isEmpty then (Except.ok [], [])
  else runBulkBatches api (chunkList purls) []

/-- A decoded single-entity response: status code plus the optional decoded
200 body (a nil `JSON200` pointer is `none`). -/
structure SingleResponse (γ : Type) where
  statusCode : Nat
  JSON200 : Option γ
deriving DecidableEq, Repr

/-- `LookupByRegistryAndName` (src/client.go lines 220-235). -/
def LookupByRegistryAndName {γ : Type}
    (api : String → String → Except String (SingleResponse γ))
    (registry name : String) : Except String (Option γ) :=
  match api registry name with
  | Except.error e => Except.error ("lookup package: " ++ e)
  | Except.ok resp =>
    if resp.statusCode = 404 then Except.ok none
    else if resp.statusCode ≠ 200 then
      Except.error ("lookup failed with status " ++ toString resp.statusCode)
    else Except.ok resp.JSON200

/-- `GetVersion` (src/client.go lines 238-253). -/
def GetVersion {γ : Type}
    (api : String → String → String → Except String (SingleResponse γ))
    (registry name version : String) : Except String (Option γ) :=
  match api registry name version with
  | Except.error e => Except.error ("get version: " ++ e)
  | Except.ok resp =>
    if resp.statusCode = 404 then Except.ok none
    else if resp.statusCode ≠ 200 then
      Except.error ("get version failed with status " ++ toString resp.statusCode)
    else Except.ok resp.JSON200

/-- `GetRepository` (src/client.go lines 294-311). -/
def GetRepository {γ : Type}
    (api : String → Except String (SingleResponse γ))
    (url : String) : Except String (Option γ) :=
  match api url with
  | Except.error e => Except.error ("lookup repository: " ++ e)
  | Except.ok resp =>
    if resp.statusCode = 404 then Except.ok none
    else if resp.statusCode ≠ 200 then
      Except.error ("lookup repository failed with status " ++ toString resp.statusCode)
    else Except.ok resp.JSON200

/-- The fixed local `perPage` of `GetAllVersions` (src/client.go line 259). -/
def perPage : Nat := 100

/-- The decoded response of `GetRegistryPackageVersionsWithResponse`; `β` is
the opaque `packages.Version` record type. -/
structure VersionsResponse (β : Type) where
  statusCode : Nat
  JSON200 : Option (List β)
deriving DecidableEq, Repr

/-- The pagination loop of `GetAllVersions` (src/client.go lines 261-288).
`api` receives the `page` and `perPage` parameters of each request.  The Go
loop is unbounded, so the embedding carries fuel: `none` means the fuel ran
out before the loop chose to stop; theorems supply enough fuel.  On `some`,
the first component is the Go result and the second the trace of page numbers
requested, in order. -/
def getAllVersionsGo {β : Type} (api : Nat → Nat → Except String (VersionsResponse β)) :
    Nat → Nat → List β → Option (Except String (List β) × List Nat)
  | 0, _, _ => none
  | fuel + 1, page, allVersions =>
    match api page perPage with
    | Except.error e => some (Except.error ("get versions: " ++ e), [page])
    | Except.ok resp =>
      if resp.statusCode = 404 then some (Except.ok [], [page])
      else if resp.statusCode ≠ 200 then
        some (Except.error ("get versions failed with status " ++ toString resp.statusCode), [page])
      else
        match resp.JSON200 with
        | none => some (Except.ok allVersions, [page])
        | some vs =>
          if vs.length = 0 then some (Except.ok allVersions, [page])
          else if vs.length < perPage then some (Except.ok (allVersions ++ vs), [page])
          else
            match getAllVersionsGo api fuel (page + 1) (allVersions ++ vs) with
            | none => none
            | some (r, tr) => some (r, page :: tr)

/-- `GetAllVersions` (src/client.go lines 256-291): the loop started at
`page = 1` with an empty accumulator. -/
def GetAllVersions {β : Type} (api : Nat → Nat → Except String (VersionsResponse β))
    (fuel : Nat) : Option (Except String (List β) × List Nat) :=
  getAllVersionsGo api fuel 1 []

/-- `DefaultPackagesServer` (src/client.go line 19). -/
def DefaultPackagesServer : String := "https://packages.ecosyste.ms/api/v1"

/-- `DefaultReposServer` (src/client.go line 20). -/
def DefaultReposServer : String := "https://repos.ecosyste.ms/api/v1"

/-- `clientConfig` (src/client.go lines 33-40).  The `*http.Client` is opaque
to every claim, so it is modelled as an opaque numeric handle. -/
structure ClientConfig where
  packagesServer : String
  reposServer : String
  httpClient : Nat
  userAgent : String
  fromEmail : String
  apiKey : String
deriving DecidableEq, Repr

/-- The handle of the transport built by `defaultHTTPClient`
(src/client.go lines 81-109); its tuning is out of model. -/
def defaultHTTPClient : Nat := 0

/-- `WithPackagesServer` (src/client.go lines 42-46). -/
def WithPackagesServer (server : String) : ClientConfig → ClientConfig :=
  fun c => { c with packagesServer := server }

/-- `WithReposServer` (src/client.go lines 48-52). -/
def WithReposServer (server : String) : ClientConfig → ClientConfig :=
  fun c => { c with reposServer := server }

/-- `WithHTTPClient` (src/client.go lines 54-58). -/
def WithHTTPClient (client : Nat) : ClientConfig → ClientConfig :=
  fun c => { c with httpClient := client }

/-- `WithFrom` (src/client.go lines 62-66). -/
def WithFrom (email : String) : ClientConfig → ClientConfig :=
  fun c => { c with fromEmail := email }

/-- `WithAPIKey` (src/client.go lines 70-74). -/
def WithAPIKey (key : String) : ClientConfig → ClientConfig :=
  fun c => { c with apiKey := key }

/-- `Client` (src/client.go lines 25-29); the two generated sub-clients are
opaque values of types `P` and `R`. -/
structure Client (P R : Type) where
  packagesClient : P
  reposClient : R
  userAgent : String

/-- `NewClient` (src/client.go lines 113-166).  The external constructors
`packages.NewClientWithResponses` and `repos.NewClientWithResponses` are the
arguments `mkPackagesClient` and `mkReposClient`; each receives the assembled
configuration (server address, transport handle, and the header values that
`addHeaders` installs on every request). -/
def NewClient {P R : Type} (mkPackagesClient : ClientConfig → Except String P)
    (mkReposClient : ClientConfig → Except String R)
    (userAgent : String) (opts : List (ClientConfig → ClientConfig)) :
    Except String (Client P R) :=
  if userAgent = "" then Except.error "userAgent is required"
  else
    let cfg0 : ClientConfig :=
      { packagesServer := DefaultPackagesServer
        reposServer := DefaultReposServer
        httpClient := defaultHTTPClient
        userAgent := userAgent
        fromEmail := ""
        apiKey := "" }
    let cfg := opts.foldl (fun c o => o c) cfg0
    match mkPackagesClient cfg with
    | Except.error e => Except.error ("creating packages client: " ++ e)
    | Except.ok p =>
      match mkReposClient cfg with
      | Except.error e => Except.error ("creating repos client: " ++ e)
      | Except.ok r => Except.ok ⟨p, r, cfg.userAgent⟩

/-! ## Lemmas about the batch slicing -/

theorem chunkGo_eq_of_le {γ : Type} (f1 : Nat) :
    ∀ (l : List γ) (f2 : Nat), l.length ≤ f1 → l.length ≤ f2 →
      chunkGo f1 l = chunkGo f2 l := by
  induction f1 with
  | zero =>
    intro l f2 h1 _
    have : l = [] := List.eq_nil_of_length_eq_zero (Nat.le_zero.mp h1)
    subst this
    cases f2 <;> simp [chunkGo]
  | succ n ih =>
    intro l f2 h1 h2
    cases l with
    | nil => cases f2 <;> simp [chunkGo]
    | cons a t =>
      cases f2 with
      | zero => simp at h2
      | succ m =>
        simp only [chunkGo]
        congr 1
        apply ih
        · simp only [List.length_drop, List.length_cons] at *
          simp [MaxBulkLookupSize]
          omega
        · simp only [List.length_drop, List.length_cons] at *
          simp [MaxBulkLookupSize]
          omega

theorem chunkList_cons_eq {γ : Type} (l : List γ) (h : l ≠ []) :
    chunkList l = l.take MaxBulkLookupSize :: chunkList (l.drop MaxBulkLookupSize) := by
  cases l with
  | nil => exact absurd rfl h
  | cons a t =>
    show chunkGo (a :: t).length (a :: t) = _
    simp only [List.length_cons, chunkGo]
    congr 1
    apply chunkGo_eq_of_le
    · simp only [List.length_drop, List.length_cons, MaxBulkLookupSize]
      omega
    · exact Nat.le_refl _

theorem chunkGo_flatten {γ : Type} :
    ∀ (fuel : Nat) (l : List γ), l.length ≤ fuel → (chunkGo fuel l).flatten = l := by
  intro fuel
  induction fuel with
  | zero =>
    intro l h
    have : l = [] := List.eq_nil_of_length_eq_zero (Nat.le_zero.mp h)
    subst this
    simp [chunkGo]
  | succ n ih =>
    intro l h
    cases l with
    | nil => simp [chunkGo]
    | cons a t =>
      simp only [chunkGo, List.flatten_cons]
      rw [ih]
      · exact List.take_append_drop _ _
      · simp only [List.length_drop, List.length_cons] at *
        simp [MaxBulkLookupSize]
        omega

theorem chunkList_flatten {γ : Type} (l : List γ) : (chunkList l).flatten = l :=
  chunkGo_flatten l.length l (Nat.le_refl _)

theorem chunkGo_length_le {γ : Type} :
    ∀ (fuel : Nat) (l : List γ) (b : List γ), b ∈ chunkGo fuel l →
      b.length ≤ MaxBulkLookupSize := by
  intro fuel
  induction fuel with
  | zero =>
    intro l b hb
    cases l <;> simp [chunkGo] at hb
  | succ n ih =>
    intro l b hb
    cases l with
    | nil => simp [chunkGo] at hb
    | cons a t =>
      simp only [chunkGo, List.mem_cons] at hb
      rcases hb with rfl | hb
      · simp [List.length_take]
      · exact ih _ _ hb

theorem chunkList_length_le {γ : Type} (l : List γ) (b : List γ)
    (hb : b ∈ chunkList l) : b.length ≤ MaxBulkLookupSize :=
  chunkGo_length_le l.length l b hb

theorem chunkList_mem_of_mem {γ : Type} (l : List γ) (b : List γ) (x : γ)
    (hb : b ∈ chunkList l) (hx : x ∈ b) : x ∈ l := by
  rw [← chunkList_flatten l]
  exact List.mem_flatten.mpr ⟨b, hb, hx⟩

theorem chunkList_map_length_250 {γ : Type} (l : List γ) (h : l.length = 250) :
    (chunkList l).map List.length = [100, 100, 50] := by
  have h0 : l ≠ [] := by
    intro he; rw [he] at h; simp at h
  rw [chunkList_cons_eq l h0]
  have h1 : (l.drop MaxBulkLookupSize).length = 150 := by
    simp [List.length_drop, MaxBulkLookupSize, h]
  have h10 : l.drop MaxBulkLookupSize ≠ [] := by
    intro he; rw [he] at h1; simp at h1
  rw [chunkList_cons_eq _ h10]
  have h2 : ((l.drop MaxBulkLookupSize).drop MaxBulkLookupSize).length = 50 := by
    simp [List.length_drop, MaxBulkLookupSize, h]
  have h20 : (l.drop MaxBulkLookupSize).drop MaxBulkLookupSize ≠ [] := by
    intro he; rw [he] at h2; simp at h2
  rw [chunkList_cons_eq _ h20]
  have h3 : ((l.drop MaxBulkLookupSize).drop MaxBulkLookupSize).drop MaxBulkLookupSize = [] := by
    apply List.eq_nil_of_length_eq_zero
    simp [List.length_drop, MaxBulkLookupSize, h]
  rw [h3]
  show _ :: _ :: _ :: List.map _ (chunkList ([] : List γ)) = _
  simp [chunkList, chunkGo, List.length_take, h, h1, h2, MaxBulkLookupSize]

/-! ## Lemmas about the bulk-lookup batch loop -/

theorem runBulkBatches_ok {α : Type}
    (api : List String → Except String (BulkLookupResponse α)) :
    ∀ (bs : List (List String)) (acc : List (String × PackageWithRegistry α)),
      (∀ b ∈ bs, ∃ r, processBatch api b = Except.ok r) →
      (runBulkBatches api bs acc).2 = bs ∧
        ∃ m, (runBulkBatches api bs acc).1 = Except.ok m := by
  intro bs
  induction bs with
  | nil => intro acc _; exact ⟨rfl, _, rfl⟩
  | cons b bs ih =>
    intro acc h
    obtain ⟨r, hr⟩ := h b (List.mem_cons_self _ _)
    have hrest : ∀ b2 ∈ bs, ∃ r2, processBatch api b2 = Except.ok r2 :=
      fun b2 hb2 => h b2 (List.mem_cons_of_mem _ hb2)
    cases r with
    | none =>
      simp only [runBulkBatches, hr]
      exact ⟨by rw [(ih acc hrest).1], (ih acc hrest).2⟩
    | some pkgs =>
      simp only [runBulkBatches, hr]
      exact ⟨by rw [(ih (mergePkgs acc pkgs) hrest).1], (ih (mergePkgs acc pkgs) hrest).2⟩

/-- C2: `BulkLookup` partitions its input into consecutive batches of at most
`MaxBulkLookupSize = 100` elements in input order (their in-order
concatenation is the input), issues exactly one network call per batch,
sequentially (the call trace equals the batch list), a 250-element input
yields exactly 3 calls of sizes 100, 100, 50, and the empty input returns an
empty mapping with no network call. -/
theorem BulkLookup_batching {α : Type}
    (api : List String → Except String (BulkLookupResponse α)) (purls : List String)
    (hok : ∀ b ∈ chunkList purls, ∃ r, processBatch api b = Except.ok r) :
    (BulkLookup api purls).2 = chunkList purls ∧
    (chunkList purls).flatten = purls ∧
    (∀ b ∈ chunkList purls, b.length ≤ MaxBulkLookupSize) ∧
    (purls.length = 250 → (chunkList purls).map List.length = [100, 100, 50]) ∧
    BulkLookup api ([] : List String) = (Except.ok [], []) := by
  refine ⟨?_, chunkList_flatten purls, fun b hb => chunkList_length_le purls b hb,
    fun h => chunkList_map_length_250 purls h, rfl⟩
  cases purls with
  | nil => rfl
  | cons a t =>
    show (runBulkBatches api (chunkList (a :: t)) []).2 = chunkList (a :: t)
    exact (runBulkBatches_ok api (chunkList (a :: t)) [] hok).1

/-- Witness for C2 at concrete inputs: a one-element input is sent as a single
batch, a concrete 250-element input is batched as 100/100/50, and the empty
input makes no network call. -/
theorem BulkLookup_batching_witness :
    (BulkLookup (fun _ => Except.ok (⟨200, some [], none⟩ : BulkLookupResponse Nat))
        ["pkg:gem/rails"]).2 = chunkList ["pkg:gem/rails"] ∧
    (chunkList ((List.range 250).map toString)).map List.length = [100, 100, 50] ∧
    BulkLookup (fun _ => Except.ok (⟨200, some [], none⟩ : BulkLookupResponse Nat))
        ([] : List String) = (Except.ok [], []) := by
  have h1 := BulkLookup_batching
    (fun _ => Except.ok (⟨200, some [], none⟩ : BulkLookupResponse Nat))
    ["pkg:gem/rails"] (fun b _ => ⟨some [], rfl⟩)
  have h2 := BulkLookup_batching
    (fun _ => Except.ok (⟨200, some [], none⟩ : BulkLookupResponse Nat))
    ((List.range 250).map toString) (fun b _ => ⟨some [], rfl⟩)
  exact ⟨h1.1, h2.2.2.2.1 (by simp), h1.2.2.2.2⟩

/-- The batch loop aborts with the error of the first failing batch: every
batch before it succeeded, and the failing batch's error is returned as the
whole call's result. -/
theorem runBulkBatches_error {α : Type}
    (api : List String → Except String (BulkLookupResponse α))
    (b : List String) (bs2 : List (List String)) (e : String)
    (he : processBatch api b = Except.error e) :
    ∀ (bs1 : List (List String)) (acc : List (String × PackageWithRegistry α)),
      (∀ b2 ∈ bs1, ∃ r, processBatch api b2 = Except.ok r) →
      (runBulkBatches api (bs1 ++ b :: bs2) acc).1 = Except.error e := by
  intro bs1
  induction bs1 with
  | nil => intro acc _; simp [runBulkBatches, he]
  | cons b1 bs1 ih =>
    intro acc h
    obtain ⟨r, hr⟩ := h b1 (List.mem_cons_self _ _)
    have hrest : ∀ b2 ∈ bs1, ∃ r2, processBatch api b2 = Except.ok r2 :=
      fun b2 hb2 => h b2 (List.mem_cons_of_mem _ hb2)
    cases r with
    | none =>
      simp only [List.cons_append, runBulkBatches, hr]
      exact ih acc hrest
    | some pkgs =>
      simp only [List.cons_append, runBulkBatches, hr]
      exact ih _ hrest

/-- C3: when some batch of a `BulkLookup` call fails (transport error or
non-200 status) while all earlier batches succeeded, the whole call returns
that batch's error and no partial mapping; the error carries the embedded
backend message when the failing response has one (`JSON400.Error`), the
wrapped transport message on a transport error, and the status code
otherwise. -/
theorem BulkLookup_error_abort {α : Type}
    (api : List String → Except String (BulkLookupResponse α)) (purls : List String)
    (bs1 : List (List String)) (b : List String) (bs2 : List (List String)) (e : String)
    (hsplit : chunkList purls = bs1 ++ b :: bs2)
    (hok : ∀ b2 ∈ bs1, ∃ r, processBatch api b2 = Except.ok r)
    (he : processBatch api b = Except.error e) :
    (BulkLookup api purls).1 = Except.error e ∧
    (∀ msg, api b = Except.error msg → e = "bulk lookup: " ++ msg) ∧
    (∀ resp, api b = Except.ok resp → resp.statusCode ≠ 200 →
      (∀ body msg, resp.JSON400 = some body → body.error = some msg →
        e = "bulk lookup failed: " ++ msg) ∧
      ((resp.JSON400 = none ∨ ∃ body, resp.JSON400 = some body ∧ body.error = none) →
        e = "bulk lookup failed with status " ++ toString resp.statusCode)) := by
  refine ⟨?_, ?_, ?_⟩
  · have hne : purls ≠ [] := by
      intro hnil
      subst hnil
      simp [chunkList, chunkGo] at hsplit
    have hempty : purls.isEmpty = false := by
      cases purls with
      | nil => exact absurd rfl hne
      | cons a t => rfl
    simp only [BulkLookup, hempty, Bool.false_eq_true, if_false, hsplit]
    exact runBulkBatches_error api b bs2 e he bs1 [] hok
  · intro msg hmsg
    simp only [processBatch, hmsg] at he
    injection he with h
    exact h.symm
  · intro resp hresp hst
    simp only [processBatch, hresp] at he
    rw [if_pos hst] at he
    constructor
    · intro body msg hbody herr
      rw [hbody] at he
      simp only [herr] at he
      injection he with h
      exact h.symm
    · intro hcase
      rcases hcase with hnone | ⟨body, hbody, herr⟩
      · rw [hnone] at he
        injection he with h
        exact h.symm
      · rw [hbody] at he
        simp only [herr] at he
        injection he with h
        exact h.symm

/-- Witness for C3: a single-batch call whose response is a 400 carrying the
backend message "bad purl" makes the whole call fail with that message. -/
theorem BulkLookup_error_abort_witness :
    (BulkLookup (fun _ => Except.ok (⟨400, none, some ⟨some "bad purl"⟩⟩ : BulkLookupResponse Nat))
        ["pkg:bad"]).1 = Except.error "bulk lookup failed: bad purl" :=
  (BulkLookup_error_abort
    (fun _ => Except.ok (⟨400, none, some ⟨some "bad purl"⟩⟩ : BulkLookupResponse Nat))
    ["pkg:bad"] [] ["pkg:bad"] [] "bulk lookup failed: bad purl" rfl
    (fun b2 hb2 => absurd hb2 (List.not_mem_nil b2)) rfl).1

/-- C1 counterexample: the code keys the result map by the `Purl` field of
each record in the backend response (src/client.go line 202), not by the
input string.  A backend that reports a rewritten PURL produces a successful
result whose only key is the rewritten form, which is not among the supplied
PURL strings — refuting the claim that every found record appears under the
original input string. -/
theorem BulkLookup_original_key_counterexample :
    (BulkLookup (fun _ => Except.ok
        (⟨200, some [⟨"pkg:npm/other", 0⟩], none⟩ : BulkLookupResponse Nat))
      ["pkg:gem/rails"]).1 =
      Except.ok [("pkg:npm/other", ⟨"pkg:npm/other", 0⟩)] ∧
    ¬ ("pkg:npm/other" ∈ ["pkg:gem/rails"]) := by
  constructor
  · rfl
  · decide

/-- Every binding of `mapInsert m k v` satisfies a property that all old
bindings and the new binding `(k, v)` satisfy. -/
theorem mapInsert_forall {β : Type} {Q : String × β → Prop}
    (m : List (String × β)) (k : String) (v : β)
    (hm : ∀ kv ∈ m, Q kv) (hkv : Q (k, v)) :
    ∀ kv ∈ mapInsert m k v, Q kv := by
  intro kv hkvmem
  unfold mapInsert at hkvmem
  by_cases hc : m.any (fun p => p.1 == k)
  · rw [if_pos hc] at hkvmem
    obtain ⟨p, hp, hpe⟩ := List.mem_map.mp hkvmem
    by_cases hpk : p.1 == k
    · rw [if_pos hpk] at hpe
      exact hpe ▸ hkv
    · rw [if_neg hpk] at hpe
      exact hpe ▸ hm p hp
  · rw [if_neg hc] at hkvmem
    rcases List.mem_append.mp hkvmem with h | h
    · exact hm kv h
    · rcases List.mem_singleton.mp h with rfl
      exact hkv

/-- Every binding of `mergePkgs m pkgs` satisfies a property that all old
bindings satisfy and that `(pkg.Purl, pkg)` satisfies for every merged
record. -/
theorem mergePkgs_forall {α : Type} {Q : String × PackageWithRegistry α → Prop} :
    ∀ (pkgs : List (PackageWithRegistry α)) (m : List (String × PackageWithRegistry α)),
      (∀ kv ∈ m, Q kv) → (∀ pkg ∈ pkgs, Q (pkg.Purl, pkg)) →
      ∀ kv ∈ mergePkgs m pkgs, Q kv := by
  intro pkgs
  induction pkgs with
  | nil => intro m hm _; exact hm
  | cons pkg pkgs ih =>
    intro m hm hp
    have h1 : ∀ kv ∈ mapInsert m pkg.Purl pkg, Q kv :=
      mapInsert_forall m pkg.Purl pkg hm (hp pkg (List.mem_cons_self _ _))
    exact ih (mapInsert m pkg.Purl pkg) h1
      (fun p hp2 => hp p (List.mem_cons_of_mem _ hp2))

/-- Every binding of a successful batch-loop result satisfies a property that
holds of the starting accumulator's bindings and of `(pkg.Purl, pkg)` for
every record any processed batch returned. -/
theorem runBulkBatches_forall {α : Type} {Q : String × PackageWithRegistry α → Prop}
    (api : List String → Except String (BulkLookupResponse α)) :
    ∀ (bs : List (List String)) (acc : List (String × PackageWithRegistry α)),
      (∀ kv ∈ acc, Q kv) →
      (∀ b ∈ bs, ∀ pkgs, processBatch api b = Except.ok (some pkgs) →
        ∀ pkg ∈ pkgs, Q (pkg.Purl, pkg)) →
      ∀ m, (runBulkBatches api bs acc).1 = Except.ok m → ∀ kv ∈ m, Q kv := by
  intro bs
  induction bs with
  | nil =>
    intro acc hacc _ m hm
    injection hm with h
    exact h ▸ hacc
  | cons b bs ih =>
    intro acc hacc hb m hm
    have hrest : ∀ b2 ∈ bs, ∀ pkgs, processBatch api b2 = Except.ok (some pkgs) →
        ∀ pkg ∈ pkgs, Q (pkg.Purl, pkg) :=
      fun b2 hb2 => hb b2 (List.mem_cons_of_mem _ hb2)
    rcases hres : processBatch api b with e | r
    · simp only [runBulkBatches, hres] at hm
      exact Except.noConfusion hm
    · cases r with
      | none =>
        simp only [runBulkBatches, hres] at hm
        exact ih acc hacc hrest m hm
      | some pkgs =>
        simp only [runBulkBatches, hres] at hm
        have hmerged : ∀ kv ∈ mergePkgs acc pkgs, Q kv :=
          mergePkgs_forall pkgs acc hacc
            (hb b (List.mem_cons_self _ _) pkgs hres)
        exact ih (mergePkgs acc pkgs) hmerged hrest m hm

/-- C1 amended: the result mapping of a successful `BulkLookup` call is keyed
by the `Purl` field of each package record in the backend responses (every
binding stores a record under that record's own reported `Purl`); in
particular, when the backend reports every record under one of the PURL
strings of its batch — i.e. echoes the supplied PURLs — every key of the
result mapping is one of the original input strings as supplied. -/
theorem BulkLookup_keyed_by_response_purl {α : Type}
    (api : List String → Except String (BulkLookupResponse α)) (purls : List String)
    (hecho : ∀ b ∈ chunkList purls, ∀ resp, api b = Except.ok resp →
      ∀ pkgs, resp.JSON200 = some pkgs → ∀ pkg ∈ pkgs, pkg.Purl ∈ b)
    (m : List (String × PackageWithRegistry α))
    (hm : (BulkLookup api purls).1 = Except.ok m) :
    (∀ kv ∈ m, kv.1 = kv.2.Purl) ∧ (∀ kv ∈ m, kv.1 ∈ purls) := by
  cases purls with
  | nil =>
    injection hm with h
    subst h
    exact ⟨fun kv hkv => absurd hkv (List.not_mem_nil kv),
           fun kv hkv => absurd hkv (List.not_mem_nil kv)⟩
  | cons a t =>
    have hrun : (runBulkBatches api (chunkList (a :: t)) []).1 = Except.ok m := hm
    have hbatch : ∀ b ∈ chunkList (a :: t), ∀ pkgs,
        processBatch api b = Except.ok (some pkgs) →
        ∀ pkg ∈ pkgs, pkg.Purl = pkg.Purl ∧ pkg.Purl ∈ (a :: t) := by
      intro b hb pkgs hproc pkg hpkg
      refine ⟨rfl, ?_⟩
      rcases hresp : api b with e | resp
      · simp only [processBatch, hresp] at hproc
        exact Except.noConfusion hproc
      · have hj : resp.JSON200 = some pkgs := by
          simp only [processBatch, hresp] at hproc
          by_cases hst : resp.statusCode ≠ 200
          · rw [if_pos hst] at hproc
            rcases h4 : resp.JSON400 with _ | body
            · simp only [h4] at hproc
              exact Except.noConfusion hproc
            · simp only [h4] at hproc
              rcases he : body.error with _ | msg
              · simp only [he] at hproc
                exact Except.noConfusion hproc
              · simp only [he] at hproc
                exact Except.noConfusion hproc
          · rw [if_neg hst] at hproc
            injection hproc
        have hpb : pkg.Purl ∈ b := hecho b hb resp hresp pkgs hj pkg hpkg
        exact chunkList_mem_of_mem (a :: t) b pkg.Purl hb hpb
    have hall := runBulkBatches_forall
      (Q := fun kv => kv.1 = kv.2.Purl ∧ kv.1 ∈ (a :: t)) api
      (chunkList (a :: t)) []
      (fun kv hkv => absurd hkv (List.not_mem_nil kv))
      (by
        intro b hb pkgs hproc pkg hpkg
        exact (hbatch b hb pkgs hproc pkg hpkg).imp (fun h => h) (fun h => h))
      m hrun
    exact ⟨fun kv hkv => (hall kv hkv).1, fun kv hkv => (hall kv hkv).2⟩

/-- Witness for the amended C1 at a concrete echoing backend: the single
binding of the result is keyed by the record's own `Purl`, which is the
original input string. -/
theorem BulkLookup_keyed_by_response_purl_witness :
    ("pkg:gem/rails" = (⟨"pkg:gem/rails", (0 : Nat)⟩ : PackageWithRegistry Nat).Purl) ∧
    ("pkg:gem/rails" ∈ ["pkg:gem/rails"]) := by
  have h := BulkLookup_keyed_by_response_purl
    (fun b => Except.ok (⟨200, some (b.map (fun s => ⟨s, 0⟩)), none⟩ : BulkLookupResponse Nat))
    ["pkg:gem/rails"]
    (by
      intro b hb resp hresp pkgs hj pkg hpkg
      injection hresp with h2
      subst h2
      simp only at hj
      injection hj with h3
      subst h3
      obtain ⟨s, hs, hse⟩ := List.mem_map.mp hpkg
      subst hse
      exact hs)
    [("pkg:gem/rails", ⟨"pkg:gem/rails", 0⟩)] rfl
  have hmem : ("pkg:gem/rails", (⟨"pkg:gem/rails", (0 : Nat)⟩ : PackageWithRegistry Nat)) ∈
      [("pkg:gem/rails", (⟨"pkg:gem/rails", (0 : Nat)⟩ : PackageWithRegistry Nat))] :=
    List.mem_singleton.mpr rfl
  exact ⟨h.1 _ hmem, h.2 _ hmem⟩

/-! ## Lemmas about the pagination loop -/

theorem getAllVersionsGo_step {β : Type} (api : Nat → Nat → Except String (VersionsResponse β))
    (f page : Nat) (acc vs : List β)
    (h : api page perPage = Except.ok ⟨200, some vs⟩) :
    getAllVersionsGo api (f + 1) page acc =
      if vs.length = 0 then some (Except.ok acc, [page])
      else if vs.length < perPage then some (Except.ok (acc ++ vs), [page])
      else
        match getAllVersionsGo api f (page + 1) (acc ++ vs) with
        | none => none
        | some (r, tr) => some (r, page :: tr) := by
  simp only [getAllVersionsGo, h]
  norm_num

theorem getAllVersionsGo_pages {β : Type} (api : Nat → Nat → Except String (VersionsResponse β))
    (pages : Nat → List β) :
    ∀ (k page fuel : Nat) (acc : List β),
      (∀ i, i < k → api (page + i) perPage = Except.ok ⟨200, some (pages (page + i))⟩ ∧
        (pages (page + i)).length = perPage) →
      api (page + k) perPage = Except.ok ⟨200, some (pages (page + k))⟩ →
      (pages (page + k)).length < perPage →
      k < fuel →
      getAllVersionsGo api fuel page acc =
        some (Except.ok (acc ++ ((List.range' page (k + 1)).map pages).flatten),
          List.range' page (k + 1)) := by
  intro k
  induction k with
  | zero =>
    intro page fuel acc _ hlast hshort hfuel
    cases fuel with
    | zero => omega
    | succ f =>
      rw [Nat.add_zero] at hlast hshort
      rw [getAllVersionsGo_step api f page acc (pages page) hlast]
      by_cases h0 : (pages page).length = 0
      · rw [if_pos h0]
        simp [List.length_eq_zero.mp h0, List.range'_one]
      · rw [if_neg h0, if_pos hshort]
        simp [List.range'_one]
  | succ k ih =>
    intro page fuel acc hfull hlast hshort hfuel
    cases fuel with
    | zero => omega
    | succ f =>
      have h0 := hfull 0 (by omega)
      rw [Nat.add_zero] at h0
      rw [getAllVersionsGo_step api f page acc (pages page) h0.1]
      rw [if_neg (by rw [h0.2, perPage]; decide),
          if_neg (by rw [h0.2]; exact Nat.lt_irrefl _)]
      have hfull2 : ∀ i, i < k → api (page + 1 + i) perPage =
          Except.ok ⟨200, some (pages (page + 1 + i))⟩ ∧
          (pages (page + 1 + i)).length = perPage := by
        intro i hi
        have := hfull (i + 1) (by omega)
        rwa [show page + (i + 1) = page + 1 + i by omega] at this
      have hlast2 : api (page + 1 + k) perPage =
          Except.ok ⟨200, some (pages (page + 1 + k))⟩ := by
        rwa [show page + (k + 1) = page + 1 + k by omega] at hlast
      have hshort2 : (pages (page + 1 + k)).length < perPage := by
        rwa [show page + (k + 1) = page + 1 + k by omega] at hshort
      rw [ih (page + 1) f (acc ++ pages page) hfull2 hlast2 hshort2 (by omega)]
      rw [show k + 1 + 1 = k + 2 by omega, List.range'_succ page (k + 1)]
      simp [List.append_assoc]

/-- C4: `GetAllVersions` pages with fixed page size `perPage = 100` starting
at page 1; when pages `1 .. k` are full (exactly `perPage` records) and page
`k+1` is the first page returning fewer records than the page size (possibly
none), the loop requests exactly pages `1 .. k+1` in order and returns the
in-order concatenation of the fetched pages. -/
theorem GetAllVersions_pagination {β : Type}
    (api : Nat → Nat → Except String (VersionsResponse β)) (pages : Nat → List β)
    (k fuel : Nat)
    (hfull : ∀ i, i < k → api (1 + i) perPage = Except.ok ⟨200, some (pages (1 + i))⟩ ∧
      (pages (1 + i)).length = perPage)
    (hlast : api (1 + k) perPage = Except.ok ⟨200, some (pages (1 + k))⟩)
    (hshort : (pages (1 + k)).length < perPage)
    (hfuel : k < fuel) :
    GetAllVersions api fuel =
      some (Except.ok ((List.range' 1 (k + 1)).map pages).flatten,
        List.range' 1 (k + 1)) := by
  have h := getAllVersionsGo_pages api pages k 1 fuel [] hfull hlast hshort hfuel
  simpa using h

/-- Witness for C4: one full page of 100 records followed by a short page
with one record; the call requests exactly pages 1 and 2 and returns the
concatenation of both pages in order. -/
theorem GetAllVersions_pagination_witness :
    GetAllVersions
        (fun p _ => if p = 1 then Except.ok ⟨200, some (List.replicate 100 (0 : Nat))⟩
          else Except.ok ⟨200, some [7]⟩) 2 =
      some (Except.ok
        ((List.range' 1 2).map (fun p => if p = 1 then List.replicate 100 (0 : Nat) else [7])).flatten,
        List.range' 1 2) := by
  exact GetAllVersions_pagination
    (fun p _ => if p = 1 then Except.ok ⟨200, some (List.replicate 100 (0 : Nat))⟩
      else Except.ok ⟨200, some [7]⟩)
    (fun p => if p = 1 then List.replicate 100 (0 : Nat) else [7]) 1 2
    (by
      intro i hi
      have hi0 : i = 0 := by omega
      subst hi0
      exact ⟨rfl, by simp [perPage]⟩)
    rfl
    (by simp [perPage])
    (by omega)

theorem getAllVersionsGo_404 {β : Type} (api : Nat → Nat → Except String (VersionsResponse β))
    (pages : Nat → List β) (resp404 : VersionsResponse β) (hst : resp404.statusCode = 404) :
    ∀ (k page fuel : Nat) (acc : List β),
      (∀ i, i < k → api (page + i) perPage = Except.ok ⟨200, some (pages (page + i))⟩ ∧
        (pages (page + i)).length = perPage) →
      api (page + k) perPage = Except.ok resp404 →
      k < fuel →
      getAllVersionsGo api fuel page acc =
        some (Except.ok [], List.range' page (k + 1)) := by
  intro k
  induction k with
  | zero =>
    intro page fuel acc _ h404 hfuel
    cases fuel with
    | zero => omega
    | succ f =>
      rw [Nat.add_zero] at h404
      simp only [getAllVersionsGo, h404]
      rw [if_pos hst]
      simp [List.range'_one]
  | succ k ih =>
    intro page fuel acc hfull h404 hfuel
    cases fuel with
    | zero => omega
    | succ f =>
      have h0 := hfull 0 (by omega)
      rw [Nat.add_zero] at h0
      rw [getAllVersionsGo_step api f page acc (pages page) h0.1]
      rw [if_neg (by rw [h0.2, perPage]; decide),
          if_neg (by rw [h0.2]; exact Nat.lt_irrefl _)]
      have hfull2 : ∀ i, i < k → api (page + 1 + i) perPage =
          Except.ok ⟨200, some (pages (page + 1 + i))⟩ ∧
          (pages (page + 1 + i)).length = perPage := by
        intro i hi
        have := hfull (i + 1) (by omega)
        rwa [show page + (i + 1) = page + 1 + i by omega] at this
      have h4042 : api (page + 1 + k) perPage = Except.ok resp404 := by
        rwa [show page + (k + 1) = page + 1 + k by omega] at h404
      rw [ih (page + 1) f (acc ++ pages page) hfull2 h4042 (by omega)]
      rw [show k + 1 + 1 = k + 2 by omega, List.range'_succ page (k + 1)]

/-- C10: when any page of a `GetAllVersions` run — not only the first —
returns HTTP 404 after earlier pages were full 200 pages, the call returns
the absent result (nil sequence, no error) and the version records
accumulated from the earlier successful pages are discarded. -/
theorem GetAllVersions_404_discards {β : Type}
    (api : Nat → Nat → Except String (VersionsResponse β)) (pages : Nat → List β)
    (resp404 : VersionsResponse β) (k fuel : Nat)
    (hst : resp404.statusCode = 404)
    (hfull : ∀ i, i < k → api (1 + i) perPage = Except.ok ⟨200, some (pages (1 + i))⟩ ∧
      (pages (1 + i)).length = perPage)
    (h404 : api (1 + k) perPage = Except.ok resp404)
    (hfuel : k < fuel) :
    GetAllVersions api fuel = some (Except.ok [], List.range' 1 (k + 1)) :=
  getAllVersionsGo_404 api pages resp404 hst k 1 fuel [] hfull h404 hfuel

/-- Witness for C10: page 1 returns 100 records, page 2 returns 404; the call
returns the empty (nil) sequence with no error, discarding page 1's records,
after requesting pages 1 and 2. -/
theorem GetAllVersions_404_discards_witness :
    GetAllVersions
        (fun p _ => if p = 1 then Except.ok ⟨200, some (List.replicate 100 (5 : Nat))⟩
          else Except.ok ⟨404, none⟩) 2 =
      some (Except.ok [], List.range' 1 2) := by
  exact GetAllVersions_404_discards
    (fun p _ => if p = 1 then Except.ok ⟨200, some (List.replicate 100 (5 : Nat))⟩
      else Except.ok ⟨404, none⟩)
    (fun p => List.replicate 100 (5 : Nat)) ⟨404, none⟩ 1 2 rfl
    (by
      intro i hi
      have hi0 : i = 0 := by omega
      subst hi0
      exact ⟨rfl, by simp [perPage]⟩)
    rfl
    (by omega)

/-- C5: for each single-entity lookup — `LookupByRegistryAndName`,
`GetVersion`, `GetRepository` — an HTTP 404 response yields the absent result
(`Except.ok none`, no error) and every other non-2xx status yields an error
carrying the status code, with no record. -/
theorem singleLookup_status_conventions {γ : Type}
    (papi : String → String → Except String (SingleResponse γ))
    (vapi : String → String → String → Except String (SingleResponse γ))
    (rapi : String → Except String (SingleResponse γ))
    (registry name version url : String) (resp : SingleResponse γ)
    (hnon2xx : ¬(200 ≤ resp.statusCode ∧ resp.statusCode < 300)) :
    (papi registry name = Except.ok resp →
      (resp.statusCode = 404 → LookupByRegistryAndName papi registry name = Except.ok none) ∧
      (resp.statusCode ≠ 404 → LookupByRegistryAndName papi registry name =
        Except.error ("lookup failed with status " ++ toString resp.statusCode))) ∧
    (vapi registry name version = Except.ok resp →
      (resp.statusCode = 404 → GetVersion vapi registry name version = Except.ok none) ∧
      (resp.statusCode ≠ 404 → GetVersion vapi registry name version =
        Except.error ("get version failed with status " ++ toString resp.statusCode))) ∧
    (rapi url = Except.ok resp →
      (resp.statusCode = 404 → GetRepository rapi url = Except.ok none) ∧
      (resp.statusCode ≠ 404 → GetRepository rapi url =
        Except.error ("lookup repository failed with status " ++ toString resp.statusCode))) := by
  refine ⟨?_, ?_, ?_⟩ <;> intro h <;> constructor
  · intro h404
    simp only [LookupByRegistryAndName, h]
    rw [if_pos h404]
  · intro h404
    have h200 : resp.statusCode ≠ 200 := by omega
    simp only [LookupByRegistryAndName, h]
    rw [if_neg h404, if_pos h200]
  · intro h404
    simp only [GetVersion, h]
    rw [if_pos h404]
  · intro h404
    have h200 : resp.statusCode ≠ 200 := by omega
    simp only [GetVersion, h]
    rw [if_neg h404, if_pos h200]
  · intro h404
    simp only [GetRepository, h]
    rw [if_pos h404]
  · intro h404
    have h200 : resp.statusCode ≠ 200 := by omega
    simp only [GetRepository, h]
    rw [if_neg h404, if_pos h200]

/-- Witness for C5: a 404 yields `Except.ok none` and a 500 yields the
status-coded error, for each of the three single-entity lookups. -/
theorem singleLookup_status_conventions_witness :
    LookupByRegistryAndName (fun _ _ => Except.ok (⟨404, none⟩ : SingleResponse Nat))
      "npmjs.org" "left-pad" = Except.ok none ∧
    LookupByRegistryAndName (fun _ _ => Except.ok (⟨500, none⟩ : SingleResponse Nat))
      "npmjs.org" "left-pad" = Except.error ("lookup failed with status " ++ toString (500 : Nat)) ∧
    GetVersion (fun _ _ _ => Except.ok (⟨500, none⟩ : SingleResponse Nat))
      "npmjs.org" "left-pad" "1.0.0" =
        Except.error ("get version failed with status " ++ toString (500 : Nat)) ∧
    GetRepository (fun _ => Except.ok (⟨500, none⟩ : SingleResponse Nat))
      "https://github.com/left-pad/left-pad" =
        Except.error ("lookup repository failed with status " ++ toString (500 : Nat)) := by
  have h404 := singleLookup_status_conventions
    (fun _ _ => Except.ok (⟨404, none⟩ : SingleResponse Nat))
    (fun _ _ _ => Except.ok (⟨404, none⟩ : SingleResponse Nat))
    (fun _ => Except.ok (⟨404, none⟩ : SingleResponse Nat))
    "npmjs.org" "left-pad" "1.0.0" "https://github.com/left-pad/left-pad"
    ⟨404, none⟩ (by decide)
  have h500 := singleLookup_status_conventions
    (fun _ _ => Except.ok (⟨500, none⟩ : SingleResponse Nat))
    (fun _ _ _ => Except.ok (⟨500, none⟩ : SingleResponse Nat))
    (fun _ => Except.ok (⟨500, none⟩ : SingleResponse Nat))
    "npmjs.org" "left-pad" "1.0.0" "https://github.com/left-pad/left-pad"
    ⟨500, none⟩ (by decide)
  exact ⟨(h404.1 rfl).1 rfl, (h500.1 rfl).2 (by decide),
    (h500.2.1 rfl).2 (by decide), (h500.2.2 rfl).2 (by decide)⟩

/-- C6: `PURLToName` returns the bare name when the namespace is empty,
`namespace:name` for the maven type, the bare name (namespace ignored) for
the apk type, and `namespace/name` for every other type. -/
theorem PURLToName_join_rule (p : PackageURL) :
    (p.Namespace = "" → PURLToName p = p.Name) ∧
    (p.Namespace ≠ "" → p.Typ = TypeMaven →
      PURLToName p = p.Namespace ++ ":" ++ p.Name) ∧
    (p.Namespace ≠ "" → p.Typ = TypeApk → PURLToName p = p.Name) ∧
    (p.Namespace ≠ "" → p.Typ ≠ TypeMaven → p.Typ ≠ TypeApk →
      PURLToName p = p.Namespace ++ "/" ++ p.Name) := by
  refine ⟨?_, ?_, ?_, ?_⟩
  · intro h
    simp [PURLToName, h]
  · intro h hm
    simp [PURLToName, h, hm]
  · intro h ha
    have hnm : p.Typ ≠ TypeMaven := by rw [ha]; decide
    simp [PURLToName, h, ha, hnm, TypeApk, TypeMaven]
  · intro h hm ha
    simp [PURLToName, h, hm, ha]

/-- Witness for C6 at one concrete PURL per branch. -/
theorem PURLToName_join_rule_witness :
    PURLToName ⟨TypeNPM, "", "lodash", "1.0.0", [], ""⟩ = "lodash" ∧
    PURLToName ⟨TypeMaven, "org.apache.commons", "commons-lang3", "", [], ""⟩ =
      "org.apache.commons" ++ ":" ++ "commons-lang3" ∧
    PURLToName ⟨TypeApk, "alpine", "curl", "", [], ""⟩ = "curl" ∧
    PURLToName ⟨TypeNPM, "babel", "core", "", [], ""⟩ = "babel" ++ "/" ++ "core" :=
  ⟨(PURLToName_join_rule _).1 rfl,
   (PURLToName_join_rule _).2.1 (by decide) rfl,
   (PURLToName_join_rule _).2.2.1 (by decide) rfl,
   (PURLToName_join_rule _).2.2.2 (by decide) (by decide) (by decide)⟩

/-- C7: `PURLToRegistry` depends on the ecosystem type alone (two PURLs with
the same type map to the same registry, whatever their namespace, name and
version); each table entry is looked up to its own registry string; the
deliberately-unsupported types (generic, github, bitbucket, bitnami,
huggingface, oci, rpm) map to the empty string; and every type outside the
table maps to the empty string, never a default guess. -/
theorem PURLToRegistry_table (p q : PackageURL) (t : String)
    (hpq : p.Typ = q.Typ) (ht : t ∉ purlTypeToRegistry.map Prod.fst) :
    PURLToRegistry p = PURLToRegistry q ∧
    (∀ kv ∈ purlTypeToRegistry, goMapGet purlTypeToRegistry kv.1 = kv.2) ∧
    (goMapGet purlTypeToRegistry TypeGeneric = "" ∧
     goMapGet purlTypeToRegistry TypeGithub = "" ∧
     goMapGet purlTypeToRegistry TypeBitbucket = "" ∧
     goMapGet purlTypeToRegistry TypeBitnami = "" ∧
     goMapGet purlTypeToRegistry TypeHuggingface = "" ∧
     goMapGet purlTypeToRegistry TypeOCI = "" ∧
     goMapGet purlTypeToRegistry TypeRPM = "") ∧
    goMapGet purlTypeToRegistry t = "" := by
  refine ⟨by simp [PURLToRegistry, hpq], by decide, by decide, ?_⟩
  have hfind : purlTypeToRegistry.find? (fun kv => kv.1 == t) = none := by
    rw [List.find?_eq_none]
    intro kv hkv
    simp only [beq_iff_eq]
    intro he
    exact ht (List.mem_map.mpr ⟨kv, hkv, he⟩)
  simp [goMapGet, hfind]

/-- Witness for C7: two npm PURLs differing in namespace, name and version
map to the same registry, and a type outside the table maps to "". -/
theorem PURLToRegistry_table_witness :
    PURLToRegistry ⟨TypeNPM, "", "lodash", "", [], ""⟩ =
      PURLToRegistry ⟨TypeNPM, "babel", "core", "7.20.0", [], ""⟩ ∧
    goMapGet purlTypeToRegistry "not-a-real-type" = "" := by
  have h := PURLToRegistry_table ⟨TypeNPM, "", "lodash", "", [], ""⟩
    ⟨TypeNPM, "babel", "core", "7.20.0", [], ""⟩ "not-a-real-type" rfl (by decide)
  exact ⟨h.1, h.2.2.2⟩

/-- C8: for every underlying parser, `ParsePURL` on text not starting with
the scheme token "pkg:" equals `ParsePURL` on the same text with "pkg:"
prepended; concretely, "gem/rails@7.0.0" and "pkg:gem/rails@7.0.0" parse to
identical structures (type gem, name rails, version 7.0.0) under the
modelled external parser. -/
theorem ParsePURL_scheme_tolerance (fromString : String → Except String PackageURL)
    (s : String) (h : hasPrefix s "pkg:" = false) :
    ParsePURL fromString s = ParsePURL fromString ("pkg:" ++ s) ∧
    ParsePURL fromStringModel "gem/rails@7.0.0" =
      Except.ok ⟨"gem", "", "rails", "7.0.0", [], ""⟩ ∧
    ParsePURL fromStringModel "pkg:gem/rails@7.0.0" =
      Except.ok ⟨"gem", "", "rails", "7.0.0", [], ""⟩ := by
  refine ⟨?_, rfl, rfl⟩
  have hp : hasPrefix ("pkg:" ++ s) "pkg:" = true := by
    unfold hasPrefix
    rw [String.data_append, List.isPrefixOf_iff_prefix]
    exact List.prefix_append _ _
  simp [ParsePURL, h, hp]

/-- Witness for C8 at the concrete input "gem/rails@7.0.0". -/
theorem ParsePURL_scheme_tolerance_witness :
    ParsePURL fromStringModel "gem/rails@7.0.0" =
      ParsePURL fromStringModel ("pkg:" ++ "gem/rails@7.0.0") ∧
    ParsePURL fromStringModel "gem/rails@7.0.0" =
      Except.ok ⟨"gem", "", "rails", "7.0.0", [], ""⟩ :=
  ⟨(ParsePURL_scheme_tolerance fromStringModel "gem/rails@7.0.0" rfl).1,
   (ParsePURL_scheme_tolerance fromStringModel "gem/rails@7.0.0" rfl).2.1⟩

/-- C9: `NewClient` with an empty identifying (user-agent) string fails with
the configuration error "userAgent is required" before any network activity —
the failing result is the same whatever backend-client constructors are
supplied, which are never invoked — while with a non-empty identifying
string construction never fails for that reason. -/
theorem NewClient_userAgent_required {P R : Type}
    (mkP mkP2 : ClientConfig → Except String P) (mkR mkR2 : ClientConfig → Except String R)
    (opts : List (ClientConfig → ClientConfig)) (ua : String) (hua : ua ≠ "") :
    NewClient mkP mkR "" opts = Except.error "userAgent is required" ∧
    NewClient mkP mkR "" opts = NewClient mkP2 mkR2 "" opts ∧
    NewClient mkP mkR ua opts ≠ Except.error "userAgent is required" := by
  refine ⟨rfl, rfl, ?_⟩
  have hempty : (ua = "") = False := eq_false hua
  simp only [NewClient, hempty, if_false]
  intro hcontra
  split at hcontra
  · injection hcontra with h2
    have h3 := congrArg String.length h2
    rw [String.length_append] at h3
    have h4 : ("creating packages client: ").length = 26 := rfl
    have h5 : ("userAgent is required").length = 21 := rfl
    omega
  · split at hcontra
    · injection hcontra with h2
      have h3 := congrArg String.length h2
      rw [String.length_append] at h3
      have h4 : ("creating repos client: ").length = 23 := rfl
      have h5 : ("userAgent is required").length = 21 := rfl
      omega
    · exact Except.noConfusion hcontra

/-- Witness for C9: empty user agent fails, "my-app/1.0" does not fail with
the configuration error. -/
theorem NewClient_userAgent_required_witness :
    NewClient (fun _ => Except.ok (0 : Nat)) (fun _ => Except.ok (0 : Nat)) "" [] =
      Except.error "userAgent is required" ∧
    NewClient (fun _ => Except.ok (0 : Nat)) (fun _ => Except.ok (0 : Nat)) "my-app/1.0" [] ≠
      Except.error "userAgent is required" := by
  have h := NewClient_userAgent_required
    (fun _ => Except.ok (0 : Nat)) (fun _ => Except.ok (0 : Nat))
    (fun _ => Except.ok (0 : Nat)) (fun _ => Except.ok (0 : Nat))
    [] "my-app/1.0" (by decide)
  exact ⟨h.1, h.2.2⟩
